import Mathlib

/-!
Shallow embedding of the sx-reporter-node reporter service (Go) in Lean 4.

The embedding covers the parts of the code that the verified claims are
about:

* the market item store (`MarketItemStore.add` / `MarketItemStore.remove`,
  a Go `map[string]uint64` modelled as an association list);
* the store dispatcher tick (`StoreProcessor.startProcessingLoop` body);
* `queueReportingTx` (reporter.go), with the verifier modelled as an
  oracle `String → Except String Int`;
* `verifyMarket`, with HTTP and JSON decoding modelled as oracles;
* the AMQP delivery handler (`parseDelivery` plus the consumer branch);
* `sendTxWithRetry` with its retry loop, gas/nonce schedule and the
  store removal on success / exhaustion, with the chain (submission
  results, receipts, nonce RPC) modelled as an environment.

Machine integers (`uint64`) are modelled as `Nat` reduced mod `2 ^ 64`
at the points where the Go code performs `uint64` arithmetic.
-/

namespace SXReporter

/-- Modulus of Go `uint64` arithmetic. -/
def U64 : Nat := 2 ^ 64

/-- Source constant `ProposeOutcome` (transaction type string). -/
def ProposeOutcome : String := "proposeOutcome"

/-- Source constant `VoteOutcome` (transaction type string). -/
def VoteOutcome : String := "voteOutcome"

/-- Source constant `ReportOutcome` (transaction type string). -/
def ReportOutcome : String := "reportOutcome"

/-- Source constant `maxTxTries` in `sendTxWithRetry`. -/
def maxTxTries : Nat := 4

/-- Source constant `txGasPriceWei` in `sendTxWithRetry`. -/
def txGasPriceWei : Nat := 1000000000

/-- Source constant `txGasLimitWei` in `sendTxWithRetry`. -/
def txGasLimitWei : Nat := 1000000

/-- Source function `Max(a, b uint64) uint64`: returns `a` if `a > b`,
else `b`. -/
def Max (a b : Nat) : Nat := if a > b then a else b

/-- Helper for Go `strings.Contains`: does `sub` occur as a contiguous
sublist of the second argument? -/
def containsSub (sub : List Char) : List Char → Bool
  | [] => sub.isEmpty
  | c :: cs => sub.isPrefixOf (c :: cs) || containsSub sub cs

/-- Model of Go `strings.Contains(s, substr)`. -/
def stringsContains (s substr : String) : Bool :=
  containsSub substr.toList s.toList

/-- The `proto.Report` record: market hash and outcome (`int32`). -/
structure Report where
  MarketHash : String
  Outcome : Int
deriving DecidableEq

/-- The `ReportingTx` queue element: a function-type tag and a report. -/
structure ReportingTx where
  functionType : String
  report : Report
deriving DecidableEq

/-- The contents of `MarketItemStore.marketItems` (a Go
`map[string]uint64`), modelled as an association list with at most one
entry per key. -/
abbrev MarketItems := List (String × Nat)

/-- Map lookup on the association-list model of the Go map. -/
def MarketItemStore.lookup (m : MarketItems) (k : String) : Option Nat :=
  (m.find? (fun p => p.1 == k)).map (fun p => p.2)

/-- Source method `MarketItemStore.add`: `m.marketItems[marketHash] =
blockTimestamp` — overwrites the entry for the key if present, otherwise
appends a new entry. -/
def MarketItemStore.add (m : MarketItems) (marketHash : String) (blockTimestamp : Nat) :
    MarketItems :=
  if m.any (fun p => p.1 == marketHash) then
    m.map (fun p => if p.1 == marketHash then (marketHash, blockTimestamp) else p)
  else
    m ++ [(marketHash, blockTimestamp)]

/-- Source method `MarketItemStore.remove`: `delete(m.marketItems,
marketHash)` — drops the entry for the key if present, otherwise leaves
the map as is. -/
def MarketItemStore.remove (m : MarketItems) (marketHash : String) : MarketItems :=
  m.filter (fun p => p.1 != marketHash)

/-- Source function `queueReportingTx(functionType, marketHash, outcome)`
from reporter.go. The verifier call `d.verifyMarket(marketHash)` is
passed in as the oracle `verify` (the Go method returns `(int32, error)`,
modelled as `Except String Int`). The result is `some tx` when the
function places `tx` on the reporting-tx channel and `none` when it
returns without enqueueing. The Go code first builds
`reportingTx = {functionType, report: {MarketHash: marketHash}}` with
the zero-valued outcome `0`, then fills the outcome per branch. -/
def queueReportingTx (verify : String → Except String Int)
    (functionType marketHash : String) (outcome : Int) : Option ReportingTx :=
  let reportingTx : ReportingTx :=
    { functionType := functionType, report := { MarketHash := marketHash, Outcome := 0 } }
  if functionType = ProposeOutcome then
    some { reportingTx with report := { reportingTx.report with Outcome := outcome } }
  else if functionType = VoteOutcome then
    match verify marketHash with
    | Except.ok verifyOutcome =>
        some { reportingTx with report := { reportingTx.report with Outcome := verifyOutcome } }
    | Except.error _ => none
  else if functionType = ReportOutcome then
    some reportingTx
  else
    none

/-- Result of one dispatcher tick of `StoreProcessor.startProcessingLoop`:
the store contents after the scan (the loop body never mutates the store)
and the reporting-txs enqueued during the scan, in iteration order. For
each entry `(marketHash, timestamp)` with `timestamp +
OutcomeVotingPeriodSeconds ≤ now` (Go `uint64` addition, hence mod
`2 ^ 64`), the loop calls `queueReportingTx(ReportOutcome, marketHash,
-1)`. -/
def startProcessingTick (verify : String → Except String Int)
    (marketItems : MarketItems) (outcomeVotingPeriodSeconds now : Nat) :
    MarketItems × List ReportingTx :=
  (marketItems,
    marketItems.foldr
      (fun p acc =>
        if (p.2 + outcomeVotingPeriodSeconds) % U64 ≤ now then
          (queueReportingTx verify ReportOutcome p.1 (-1)).toList ++ acc
        else
          acc)
      [])

/-- Source function `MQService.parseDelivery`: a `nil` body is an error;
otherwise the body is JSON-decoded into a `Report`. JSON decoding
(`json.Unmarshal`, an external library call) is modelled by the oracle
`unmarshalReport`. -/
def parseDelivery (unmarshalReport : List Nat → Except String Report)
    (body : Option (List Nat)) : Except String Report :=
  match body with
  | none => Except.error "no message body"
  | some bytes =>
      match unmarshalReport bytes with
      | Except.error e =>
          Except.error ("error during report outcome json unmarshaling, " ++ e)
      | Except.ok reportOutcome => Except.ok reportOutcome

/-- Observable effect of handling one AMQP delivery. -/
structure DeliveryEffect where
  acked : Bool
  enqueued : List ReportingTx
deriving DecidableEq

/-- Per-delivery behaviour of the consumer goroutine in
`MQService.startConsumer` combined with the forwarding branch of
`startConsumeLoop`: on parse error the delivery is acked and dropped;
on success the delivery is acked and the report is forwarded to
`queueReportingTx(ProposeOutcome, report.MarketHash, report.Outcome)`. -/
def handleDelivery (unmarshalReport : List Nat → Except String Report)
    (verify : String → Except String Int) (body : Option (List Nat)) : DeliveryEffect :=
  match parseDelivery unmarshalReport body with
  | Except.error _ => { acked := true, enqueued := [] }
  | Except.ok report =>
      { acked := true
        enqueued :=
          (queueReportingTx verify ProposeOutcome report.MarketHash report.Outcome).toList }

/-- Response shape expected by `verifyMarket` (source type
`verifyAPIResponse`). -/
structure VerifyAPIResponse where
  Outcome : Int
  Timestamp : Int
deriving DecidableEq

/-- Result of the `http.Get` call inside `verifyMarket`: either the GET
itself fails, or a response arrives with a status code and a body-read
result (`ioutil.ReadAll` may fail). -/
inductive HTTPGetResult where
  | getError (msg : String)
  | response (statusCode : Nat) (bodyResult : Except String (List Nat))

/-- Source function `verifyMarket(marketHash)` with HTTP and JSON
modelled as oracles, following the source order of checks: GET error,
body-read error, non-200 status, unmarshal error, else the decoded
`Outcome`. The Go function returns `(-1, err)` on every error path,
modelled as `Except.error`. -/
def verifyMarket (httpGet : HTTPGetResult)
    (unmarshal : List Nat → Except String VerifyAPIResponse) : Except String Int :=
  match httpGet with
  | HTTPGetResult.getError e => Except.error e
  | HTTPGetResult.response statusCode bodyResult =>
      match bodyResult with
      | Except.error parseErr => Except.error parseErr
      | Except.ok body =>
          if statusCode ≠ 200 then
            Except.error "got non-200 response from verify market response"
          else
            match unmarshal body with
            | Except.error marshalErr => Except.error marshalErr
            | Except.ok data => Except.ok data.Outcome

/-- Outcome of one `txn.Do()` submission inside `sendTxWithRetry`:
either the submission itself returns an error with the given text, or
it succeeds and the awaited receipt carries the given status. -/
inductive SubmitOutcome where
  | doError (msg : String)
  | receiptStatus (status : Nat)
deriving DecidableEq

/-- Environment of one `sendTxWithRetry` invocation: whether the three
setup steps that return early on failure succeed (ABI construction,
validator-address lookup, txn construction), the initial
`getCurrentNonce` value, the nonce returned by each in-loop
`getCurrentNonce` refresh (indexed by the loop counter at the time of
the call; a failed RPC returns 0 in the source, which is covered by the
oracle returning 0), and the outcome of each submission (indexed by the
loop counter). All nonces are `uint64` values, reduced mod `2 ^ 64` at
the point of use. -/
structure TxEnv where
  abiOk : Bool
  addrOk : Bool
  txnOk : Bool
  initNonce : Nat
  refresh : Nat → Nat
  submit : Nat → SubmitOutcome

/-- Parameters of one recorded submission attempt: the value of the
loop counter `txTry` and the `TxnOpts` used (`GasPrice`, `GasLimit`,
`Nonce`). -/
structure Attempt where
  txTry : Nat
  gasPrice : Nat
  gasLimit : Nat
  nonce : Nat
deriving DecidableEq

/-- How a `sendTxWithRetry` invocation ended. -/
inductive TxResult where
  | success
  | fatalError
  | exhausted
  | setupError
deriving DecidableEq

/-- Result of a `sendTxWithRetry` invocation: the market store after the
call, the recorded submission attempts in order, and how the call
ended. -/
structure SendResult where
  store : MarketItems
  attempts : List Attempt
  result : TxResult
deriving DecidableEq

/-- The retry loop `for txTry < maxTxTries { ... }` of
`sendTxWithRetry`. Each iteration submits once with `GasPrice =
txGasPriceWei + txTry * txGasPriceWei`, `GasLimit = txGasLimitWei`,
`Nonce = currNonce`. A submission error containing "nonce too low"
refreshes `currNonce = Max(nonce, nonce+1)` (uint64) and continues with
`txTry + 1`; any other submission error returns. A receipt with status 1
removes the market from the store when the function is `ReportOutcome`
and returns; any other receipt refreshes the nonce the same way and
continues. Falling out of the loop removes the market from the store
when the function is `ReportOutcome`. -/
def sendTxLoop (functionName : String) (report : Report) (env : TxEnv)
    (store : MarketItems) (txTry currNonce : Nat) : SendResult :=
  if txTry < maxTxTries then
    let att : Attempt :=
      { txTry := txTry
        gasPrice := txGasPriceWei + txTry * txGasPriceWei
        gasLimit := txGasLimitWei
        nonce := currNonce }
    match env.submit txTry with
    | SubmitOutcome.doError msg =>
        if stringsContains msg "nonce too low" then
          let rest :=
            sendTxLoop functionName report env store (txTry + 1)
              (Max (env.refresh txTry % U64) ((env.refresh txTry + 1) % U64))
          { rest with attempts := att :: rest.attempts }
        else
          { store := store, attempts := [att], result := TxResult.fatalError }
    | SubmitOutcome.receiptStatus status =>
        if status = 1 then
          { store :=
              if functionName = ReportOutcome then
                MarketItemStore.remove store report.MarketHash
              else store
            attempts := [att]
            result := TxResult.success }
        else
          let rest :=
            sendTxLoop functionName report env store (txTry + 1)
              (Max (env.refresh txTry % U64) ((env.refresh txTry + 1) % U64))
          { rest with attempts := att :: rest.attempts }
  else
    { store :=
        if functionName = ReportOutcome then
          MarketItemStore.remove store report.MarketHash
        else store
      attempts := []
      result := TxResult.exhausted }
termination_by maxTxTries - txTry

/-- Source function `sendTxWithRetry(functionType, report)`. The early
`return` paths before the loop (ABI error, validator-address error, txn
construction error) leave the store untouched and submit nothing; the
private-key and initial-nonce errors only log and continue in the
source. For the three known function types the source sets
`functionName = functionType`. -/
def sendTxWithRetry (functionType : String) (report : Report)
    (store : MarketItems) (env : TxEnv) : SendResult :=
  if env.abiOk = false then
    { store := store, attempts := [], result := TxResult.setupError }
  else if env.addrOk = false then
    { store := store, attempts := [], result := TxResult.setupError }
  else if env.txnOk = false then
    { store := store, attempts := [], result := TxResult.setupError }
  else
    sendTxLoop functionType report env store 0 (env.initNonce % U64)

/-! ## Store lemmas (map semantics of the association-list model) -/

theorem lookup_nil (k : String) : MarketItemStore.lookup [] k = none := rfl

theorem lookup_cons (p : String × Nat) (rest : MarketItems) (k : String) :
    MarketItemStore.lookup (p :: rest) k =
      if p.1 = k then some p.2 else MarketItemStore.lookup rest k := by
  by_cases hp : p.1 = k
  · rw [MarketItemStore.lookup, List.find?_cons_of_pos _ (by simp [hp]), if_pos hp]
    rfl
  · rw [MarketItemStore.lookup, List.find?_cons_of_neg _ (by simp [hp]), if_neg hp]
    rfl

theorem lookup_remove (m : MarketItems) (h k : String) :
    MarketItemStore.lookup (MarketItemStore.remove m h) k =
      if k = h then none else MarketItemStore.lookup m k := by
  induction m with
  | nil => by_cases hk : k = h <;> simp [lookup_nil, MarketItemStore.remove, hk]
  | cons p rest ih =>
    have hrest : rest.filter (fun p => p.1 != h) = MarketItemStore.remove rest h := rfl
    by_cases hp : p.1 = h
    · rw [MarketItemStore.remove, List.filter_cons_of_neg (by simp [hp]), hrest, ih,
        lookup_cons]
      by_cases hk : k = h
      · rw [if_pos hk, if_pos hk]
      · rw [if_neg hk, if_neg hk, if_neg (by rw [hp]; exact fun hc => hk hc.symm)]
    · rw [MarketItemStore.remove, List.filter_cons_of_pos (by simp [hp]), hrest,
        lookup_cons, ih, lookup_cons]
      by_cases hpk : p.1 = k
      · rw [if_pos hpk, if_pos hpk, if_neg (fun hc : k = h => hp (hpk.trans hc))]
      · rw [if_neg hpk, if_neg hpk]

theorem lookup_map_overwrite_self (m : MarketItems) (h : String) (ts : Nat)
    (hany : m.any (fun p => p.1 == h)) :
    MarketItemStore.lookup (m.map (fun p => if p.1 == h then (h, ts) else p)) h = some ts := by
  induction m with
  | nil => simp at hany
  | cons p rest ih =>
    rw [List.map_cons]
    by_cases hp : p.1 = h
    · rw [show (if p.1 == h then (h, ts) else p) = (h, ts) from by simp [hp]]
      rw [lookup_cons, if_pos rfl]
    · rw [show (if p.1 == h then (h, ts) else p) = p from by simp [hp]]
      rw [lookup_cons, if_neg hp]
      apply ih
      simp only [List.any_cons, Bool.or_eq_true, beq_iff_eq] at hany
      rcases hany with hc | hc
      · exact absurd hc hp
      · exact hc

theorem lookup_map_overwrite_other (m : MarketItems) (h : String) (ts : Nat) (k : String)
    (hk : k ≠ h) :
    MarketItemStore.lookup (m.map (fun p => if p.1 == h then (h, ts) else p)) k =
      MarketItemStore.lookup m k := by
  induction m with
  | nil => rfl
  | cons p rest ih =>
    rw [List.map_cons]
    by_cases hp : p.1 = h
    · rw [show (if p.1 == h then (h, ts) else p) = (h, ts) from by simp [hp]]
      rw [lookup_cons, lookup_cons, if_neg (fun hc : h = k => hk hc.symm),
        if_neg (by rw [hp]; exact fun hc : h = k => hk hc.symm), ih]
    · rw [show (if p.1 == h then (h, ts) else p) = p from by simp [hp]]
      rw [lookup_cons, lookup_cons, ih]

theorem lookup_append_singleton_other (m : MarketItems) (h : String) (ts : Nat) (k : String)
    (hk : k ≠ h) :
    MarketItemStore.lookup (m ++ [(h, ts)]) k = MarketItemStore.lookup m k := by
  induction m with
  | nil =>
    rw [List.nil_append, lookup_cons,
      if_neg (show ¬((h, ts).1 = k) from fun hc => hk hc.symm)]
  | cons p rest ih =>
    rw [List.cons_append, lookup_cons, lookup_cons, ih]

theorem lookup_append_singleton_self (m : MarketItems) (h : String) (ts : Nat)
    (hall : ∀ q ∈ m, ¬ (q.1 = h)) :
    MarketItemStore.lookup (m ++ [(h, ts)]) h = some ts := by
  induction m with
  | nil => rw [List.nil_append, lookup_cons, if_pos rfl]
  | cons p rest ih =>
    rw [List.cons_append, lookup_cons, if_neg (hall p (by simp))]
    exact ih (fun q hq => hall q (by simp [hq]))

theorem lookup_add (m : MarketItems) (h : String) (ts : Nat) (k : String) :
    MarketItemStore.lookup (MarketItemStore.add m h ts) k =
      if k = h then some ts else MarketItemStore.lookup m k := by
  by_cases hany : m.any (fun p => p.1 == h)
  · rw [MarketItemStore.add, if_pos hany]
    by_cases hk : k = h
    · rw [if_pos hk, hk, lookup_map_overwrite_self m h ts hany]
    · rw [if_neg hk, lookup_map_overwrite_other m h ts k hk]
  · rw [MarketItemStore.add, if_neg hany]
    have hall : ∀ q ∈ m, ¬ (q.1 = h) := by
      intro q hq hc
      exact hany (List.any_of_mem hq (by simp [hc]))
    by_cases hk : k = h
    · rw [if_pos hk, hk, lookup_append_singleton_self m h ts hall]
    · rw [if_neg hk, lookup_append_singleton_other m h ts k hk]

theorem remove_remove (m : MarketItems) (h : String) :
    MarketItemStore.remove (MarketItemStore.remove m h) h = MarketItemStore.remove m h := by
  simp [MarketItemStore.remove, List.filter_filter]

theorem remove_absent (m : MarketItems) (h : String)
    (habs : MarketItemStore.lookup m h = none) :
    MarketItemStore.remove m h = m := by
  induction m with
  | nil => rfl
  | cons p rest ih =>
    rw [lookup_cons] at habs
    by_cases hp : p.1 = h
    · rw [if_pos hp] at habs
      exact absurd habs (by simp)
    · rw [if_neg hp] at habs
      rw [MarketItemStore.remove, List.filter_cons_of_pos (by simp [hp])]
      rw [show rest.filter (fun p => p.1 != h) = MarketItemStore.remove rest h from rfl,
        ih habs]

/-- Claim C10: for every store state and every market hash `h`, `add h ts`
maps `h` to `ts`, overwriting any existing entry for `h` and leaving every
other key unchanged; `remove h` deletes `h`'s entry if present and is a
no-op if `h` is absent, so `remove` is idempotent and `remove` after `add`
of the same key restores every other mapping. -/
theorem claim_C10_store_add_remove (m : MarketItems) (h k : String) (ts : Nat)
    (hk : k ≠ h) :
    MarketItemStore.lookup (MarketItemStore.add m h ts) h = some ts ∧
    MarketItemStore.lookup (MarketItemStore.add m h ts) k = MarketItemStore.lookup m k ∧
    MarketItemStore.lookup (MarketItemStore.remove m h) h = none ∧
    MarketItemStore.lookup (MarketItemStore.remove m h) k = MarketItemStore.lookup m k ∧
    MarketItemStore.remove (MarketItemStore.remove m h) h = MarketItemStore.remove m h ∧
    (MarketItemStore.lookup m h = none → MarketItemStore.remove m h = m) ∧
    MarketItemStore.lookup (MarketItemStore.remove (MarketItemStore.add m h ts) h) k =
      MarketItemStore.lookup m k := by
  refine ⟨?_, ?_, ?_, ?_, remove_remove m h, remove_absent m h, ?_⟩
  · rw [lookup_add, if_pos rfl]
  · rw [lookup_add, if_neg hk]
  · rw [lookup_remove, if_pos rfl]
  · rw [lookup_remove, if_neg hk]
  · rw [lookup_remove, if_neg hk, lookup_add, if_neg hk]

/-- Witness for claim C10 at a concrete store and keys. -/
theorem claim_C10_store_add_remove_witness :
    MarketItemStore.lookup (MarketItemStore.add [("a", 1), ("b", 2)] "a" 7) "a" = some 7 ∧
    MarketItemStore.lookup (MarketItemStore.add [("a", 1), ("b", 2)] "a" 7) "b" =
      MarketItemStore.lookup [("a", 1), ("b", 2)] "b" ∧
    MarketItemStore.lookup (MarketItemStore.remove [("a", 1), ("b", 2)] "a") "a" = none ∧
    MarketItemStore.lookup (MarketItemStore.remove [("a", 1), ("b", 2)] "a") "b" =
      MarketItemStore.lookup [("a", 1), ("b", 2)] "b" ∧
    MarketItemStore.remove (MarketItemStore.remove [("a", 1), ("b", 2)] "a") "a" =
      MarketItemStore.remove [("a", 1), ("b", 2)] "a" ∧
    (MarketItemStore.lookup [("a", 1), ("b", 2)] "a" = none →
      MarketItemStore.remove [("a", 1), ("b", 2)] "a" = [("a", 1), ("b", 2)]) ∧
    MarketItemStore.lookup
        (MarketItemStore.remove (MarketItemStore.add [("a", 1), ("b", 2)] "a" 7) "a") "b" =
      MarketItemStore.lookup [("a", 1), ("b", 2)] "b" :=
  claim_C10_store_add_remove [("a", 1), ("b", 2)] "a" "b" 7 (by decide)

theorem queueReportingTx_reportOutcome (verify : String → Except String Int)
    (marketHash : String) (outcome : Int) :
    queueReportingTx verify ReportOutcome marketHash outcome =
      some { functionType := ReportOutcome
             report := { MarketHash := marketHash, Outcome := 0 } } := by
  simp [queueReportingTx, ReportOutcome, ProposeOutcome, VoteOutcome]

/-- Claim C4: on each 5-second tick, the store dispatcher enqueues one
Report reporting-tx for exactly those store entries `(hash, ts)` with
`ts + votingPeriodSeconds ≤ now` (`uint64` addition as in the source),
and the scan itself removes no entry and modifies no entry;
consequently with `votingPeriodSeconds = 0` every entry whose timestamp
is `≤ now` is dispatched on the next tick. -/
theorem claim_C4_dispatcher_tick (verify : String → Except String Int)
    (marketItems : MarketItems) (votingPeriodSeconds now : Nat) :
    (startProcessingTick verify marketItems votingPeriodSeconds now).1 = marketItems ∧
    (startProcessingTick verify marketItems votingPeriodSeconds now).2 =
      (marketItems.filter (fun p => (p.2 + votingPeriodSeconds) % U64 ≤ now)).map
        (fun p => { functionType := ReportOutcome
                    report := { MarketHash := p.1, Outcome := 0 } }) ∧
    (votingPeriodSeconds = 0 → ∀ p ∈ marketItems, p.2 < U64 → p.2 ≤ now →
      ({ functionType := ReportOutcome, report := { MarketHash := p.1, Outcome := 0 } } :
          ReportingTx) ∈ (startProcessingTick verify marketItems votingPeriodSeconds now).2) := by
  have hfold : ∀ l : MarketItems,
      List.foldr
        (fun p acc =>
          if (p.2 + votingPeriodSeconds) % U64 ≤ now then
            (queueReportingTx verify ReportOutcome p.1 (-1)).toList ++ acc
          else acc)
        [] l =
      (l.filter (fun p => (p.2 + votingPeriodSeconds) % U64 ≤ now)).map
        (fun p => { functionType := ReportOutcome
                    report := { MarketHash := p.1, Outcome := 0 } }) := by
    intro l
    induction l with
    | nil => rfl
    | cons p rest ih =>
      rw [List.foldr_cons, List.filter_cons]
      by_cases hc : (p.2 + votingPeriodSeconds) % U64 ≤ now
      · rw [if_pos hc, queueReportingTx_reportOutcome, ih]
        simp [hc]
      · rw [if_neg hc, ih]
        simp [hc]
  have hmain : (startProcessingTick verify marketItems votingPeriodSeconds now).2 =
      (marketItems.filter (fun p => (p.2 + votingPeriodSeconds) % U64 ≤ now)).map
        (fun p => { functionType := ReportOutcome
                    report := { MarketHash := p.1, Outcome := 0 } }) := by
    rw [startProcessingTick]
    exact hfold marketItems
  refine ⟨rfl, hmain, ?_⟩
  intro hvp p hp hlt hle
  rw [hmain]
  apply List.mem_map_of_mem
  rw [List.mem_filter]
  refine ⟨hp, ?_⟩
  subst hvp
  simpa [Nat.mod_eq_of_lt hlt] using hle

/-- Witness for claim C4 at a concrete store, voting period 0 and a
concrete clock. -/
theorem claim_C4_dispatcher_tick_witness :
    ({ functionType := ReportOutcome, report := { MarketHash := "m", Outcome := 0 } } :
        ReportingTx) ∈
      (startProcessingTick (fun _ => Except.error "") [("m", 10), ("n", 50)] 0 20).2 :=
  (claim_C4_dispatcher_tick (fun _ => Except.error "") [("m", 10), ("n", 50)] 0 20).2.2
    rfl ("m", 10) (by decide) (by decide) (by decide)

/-- Claim C6: for every AMQP delivery, if the body decodes as JSON into
a `Report`, the consumer acks the delivery and enqueues exactly one
Propose reporting-tx carrying that marketHash and outcome; if the body
is absent or fails to decode, the consumer acks the delivery and
enqueues zero reporting-txs. -/
theorem claim_C6_delivery (unmarshalReport : List Nat → Except String Report)
    (verify : String → Except String Int) (body : Option (List Nat)) :
    (handleDelivery unmarshalReport verify body).acked = true ∧
    (body = none → (handleDelivery unmarshalReport verify body).enqueued = []) ∧
    (∀ bs e, body = some bs → unmarshalReport bs = Except.error e →
      (handleDelivery unmarshalReport verify body).enqueued = []) ∧
    (∀ bs r, body = some bs → unmarshalReport bs = Except.ok r →
      (handleDelivery unmarshalReport verify body).enqueued =
        [{ functionType := ProposeOutcome
           report := { MarketHash := r.MarketHash, Outcome := r.Outcome } }]) := by
  refine ⟨?_, ?_, ?_, ?_⟩
  · cases body with
    | none => rfl
    | some bs =>
      cases h : unmarshalReport bs <;> simp [handleDelivery, parseDelivery, h]
  · intro hb
    subst hb
    rfl
  · intro bs e hb he
    subst hb
    simp [handleDelivery, parseDelivery, he]
  · intro bs r hb hr
    subst hb
    simp [handleDelivery, parseDelivery, hr, queueReportingTx, ProposeOutcome]

/-- Witness for claim C6 at a concrete decoder and delivery body. -/
theorem claim_C6_delivery_witness :
    (handleDelivery (fun bs => if bs = [1] then Except.ok { MarketHash := "m", Outcome := 2 }
        else Except.error "bad") (fun _ => Except.error "") (some [1])).enqueued =
      [{ functionType := ProposeOutcome
         report := { MarketHash := "m", Outcome := 2 } }] :=
  (claim_C6_delivery _ _ _).2.2.2 [1] { MarketHash := "m", Outcome := 2 } rfl (by simp)

/-- Claim C7: for a Vote, `queueReportingTx` consults the verifier
before enqueueing; if the verifier returns an error, no ReportingTx is
enqueued for that market, and if it succeeds, exactly one Vote
ReportingTx carrying the verifier's outcome is enqueued. -/
theorem claim_C7_vote_verifier_gate (verify : String → Except String Int)
    (marketHash : String) (outcome : Int) :
    (∀ e, verify marketHash = Except.error e →
      queueReportingTx verify VoteOutcome marketHash outcome = none) ∧
    (∀ v, verify marketHash = Except.ok v →
      queueReportingTx verify VoteOutcome marketHash outcome =
        some { functionType := VoteOutcome
               report := { MarketHash := marketHash, Outcome := v } }) := by
  constructor
  · intro e he
    simp [queueReportingTx, VoteOutcome, ProposeOutcome, he]
  · intro v hv
    simp [queueReportingTx, VoteOutcome, ProposeOutcome, hv]

/-- Witness for claim C7 with a verifier that returns outcome 3. -/
theorem claim_C7_vote_verifier_gate_witness :
    queueReportingTx (fun _ => Except.ok 3) VoteOutcome "m" (-1) =
      some { functionType := VoteOutcome
             report := { MarketHash := "m", Outcome := 3 } } :=
  (claim_C7_vote_verifier_gate (fun _ => Except.ok 3) "m" (-1)).2 3 rfl

/-- Claim C8: `verifyMarket` returns an error exactly when the HTTP GET
fails, the response body fails to read, the response status is not 200,
or the body fails to decode; on a 200 response with a valid JSON body it
returns the body's `Outcome` field with no error. -/
theorem claim_C8_verifyMarket_errors (unmarshal : List Nat → Except String VerifyAPIResponse)
    (httpGet : HTTPGetResult) :
    ((∃ e, verifyMarket httpGet unmarshal = Except.error e) ↔
      (∃ msg, httpGet = HTTPGetResult.getError msg) ∨
      (∃ st e, httpGet = HTTPGetResult.response st (Except.error e)) ∨
      (∃ st b, httpGet = HTTPGetResult.response st (Except.ok b) ∧ st ≠ 200) ∨
      (∃ b e, httpGet = HTTPGetResult.response 200 (Except.ok b) ∧
        unmarshal b = Except.error e)) ∧
    (∀ b d, httpGet = HTTPGetResult.response 200 (Except.ok b) →
      unmarshal b = Except.ok d → verifyMarket httpGet unmarshal = Except.ok d.Outcome) := by
  constructor
  · cases httpGet with
    | getError msg => simp [verifyMarket]
    | response st bodyResult =>
      cases bodyResult with
      | error e => simp [verifyMarket]
      | ok b =>
        by_cases hst : st = 200
        · subst hst
          cases hu : unmarshal b with
          | error e => simp [verifyMarket, hu]
          | ok d => simp [verifyMarket, hu]
        · simp only [verifyMarket, if_pos (by exact hst)]
          constructor
          · intro _
            exact Or.inr (Or.inr (Or.inl ⟨st, b, rfl, hst⟩))
          · intro _
            exact ⟨_, rfl⟩
  · intro b d hb hd
    subst hb
    simp [verifyMarket, hd]

/-- Witness for claim C8 at a concrete 200 response with a decodable
body. -/
theorem claim_C8_verifyMarket_errors_witness :
    verifyMarket (HTTPGetResult.response 200 (Except.ok [1]))
        (fun bs => if bs = [1] then Except.ok { Outcome := 4, Timestamp := 5 }
          else Except.error "e") =
      Except.ok 4 :=
  (claim_C8_verifyMarket_errors _ _).2 [1] { Outcome := 4, Timestamp := 5 } rfl (by simp)




theorem Max_eq_max (a b : Nat) : Max a b = max a b := by
  rw [Max]
  split <;> omega

theorem le_nextNonce {r : Nat} (hb : r < U64) :
    r ≤ Max (r % U64) ((r + 1) % U64) := by
  rw [Nat.mod_eq_of_lt hb, Max_eq_max]
  exact le_max_left r _

theorem nextNonce_le_nextNonce {r r' : Nat} (h : r ≤ r') (hb' : r' < U64) :
    Max (r % U64) ((r + 1) % U64) ≤ Max (r' % U64) ((r' + 1) % U64) := by
  have hb : r < U64 := lt_of_le_of_lt h hb'
  rw [Nat.mod_eq_of_lt hb, Nat.mod_eq_of_lt hb', Max_eq_max, Max_eq_max]
  rcases Nat.eq_or_lt_of_le h with rfl | hlt
  · exact le_rfl
  · have h1 : r + 1 < U64 := by omega
    rw [Nat.mod_eq_of_lt h1]
    have h2 : r' ≤ max r' ((r' + 1) % U64) := le_max_left _ _
    omega

theorem sendTxLoop_head (functionName : String) (report : Report) (env : TxEnv)
    (store : MarketItems) (txTry currNonce : Nat) (ht : txTry < maxTxTries) :
    ∃ tail, (sendTxLoop functionName report env store txTry currNonce).attempts =
      { txTry := txTry, gasPrice := txGasPriceWei + txTry * txGasPriceWei
        gasLimit := txGasLimitWei, nonce := currNonce } :: tail := by
  rw [sendTxLoop, if_pos ht]
  cases henv : env.submit txTry with
  | doError msg =>
    dsimp only
    by_cases hm : stringsContains msg "nonce too low"
    · refine ⟨(sendTxLoop functionName report env store (txTry + 1)
        (Max (env.refresh txTry % U64) ((env.refresh txTry + 1) % U64))).attempts, ?_⟩
      rw [if_pos hm]
    · refine ⟨[], ?_⟩
      rw [if_neg hm]
  | receiptStatus status =>
    dsimp only
    by_cases hs : status = 1
    · refine ⟨[], ?_⟩
      rw [if_pos hs]
    · refine ⟨(sendTxLoop functionName report env store (txTry + 1)
        (Max (env.refresh txTry % U64) ((env.refresh txTry + 1) % U64))).attempts, ?_⟩
      rw [if_neg hs]



theorem sendTxLoop_attempts_shape (functionName : String) (report : Report) (env : TxEnv) :
    ∀ (k : Nat), ∀ txTry currNonce store, maxTxTries - txTry ≤ k →
      (sendTxLoop functionName report env store txTry currNonce).attempts.length ≤
          maxTxTries - txTry ∧
      (sendTxLoop functionName report env store txTry currNonce).attempts.map Attempt.txTry =
        List.range' txTry
          (sendTxLoop functionName report env store txTry currNonce).attempts.length ∧
      ∀ a ∈ (sendTxLoop functionName report env store txTry currNonce).attempts,
        a.gasPrice = (a.txTry + 1) * txGasPriceWei ∧ a.gasLimit = txGasLimitWei := by
  intro k
  induction k with
  | zero =>
    intro txTry currNonce store hk
    have ht : ¬ txTry < maxTxTries := by omega
    rw [sendTxLoop, if_neg ht]
    simp
  | succ k ih =>
    intro txTry currNonce store hk
    by_cases ht : txTry < maxTxTries
    · rw [sendTxLoop, if_pos ht]
      cases henv : env.submit txTry with
      | doError msg =>
        dsimp only
        by_cases hm : stringsContains msg "nonce too low"
        · rw [if_pos hm]
          dsimp only
          have hrec := ih (txTry + 1)
            (Max (env.refresh txTry % U64) ((env.refresh txTry + 1) % U64)) store (by omega)
          have hrec1 := hrec.1
          refine ⟨?_, ?_, ?_⟩
          · rw [List.length_cons]
            omega
          · rw [List.map_cons, hrec.2.1, List.length_cons]
            rfl
          · intro a ha
            rw [List.mem_cons] at ha
            rcases ha with rfl | ha
            · exact ⟨by show txGasPriceWei + txTry * txGasPriceWei = _ ; ring, rfl⟩
            · exact hrec.2.2 a ha
        · rw [if_neg hm]
          dsimp only
          refine ⟨?_, rfl, ?_⟩
          · rw [List.length_singleton]
            omega
          · intro a ha
            rw [List.mem_singleton] at ha
            subst ha
            exact ⟨by show txGasPriceWei + txTry * txGasPriceWei = _ ; ring, rfl⟩
      | receiptStatus status =>
        dsimp only
        by_cases hs : status = 1
        · rw [if_pos hs]
          dsimp only
          refine ⟨?_, rfl, ?_⟩
          · rw [List.length_singleton]
            omega
          · intro a ha
            rw [List.mem_singleton] at ha
            subst ha
            exact ⟨by show txGasPriceWei + txTry * txGasPriceWei = _ ; ring, rfl⟩
        · rw [if_neg hs]
          dsimp only
          have hrec := ih (txTry + 1)
            (Max (env.refresh txTry % U64) ((env.refresh txTry + 1) % U64)) store (by omega)
          have hrec1 := hrec.1
          refine ⟨?_, ?_, ?_⟩
          · rw [List.length_cons]
            omega
          · rw [List.map_cons, hrec.2.1, List.length_cons]
            rfl
          · intro a ha
            rw [List.mem_cons] at ha
            rcases ha with rfl | ha
            · exact ⟨by show txGasPriceWei + txTry * txGasPriceWei = _ ; ring, rfl⟩
            · exact hrec.2.2 a ha
    · rw [sendTxLoop, if_neg ht]
      simp


theorem sendTxLoop_store_frame (functionName : String) (report : Report) (env : TxEnv) :
    ∀ (k : Nat), ∀ txTry currNonce store, maxTxTries - txTry ≤ k →
      (((sendTxLoop functionName report env store txTry currNonce).result = TxResult.success ∨
        (sendTxLoop functionName report env store txTry currNonce).result = TxResult.exhausted) →
        (sendTxLoop functionName report env store txTry currNonce).store =
          (if functionName = ReportOutcome then
            MarketItemStore.remove store report.MarketHash
          else store)) ∧
      ((sendTxLoop functionName report env store txTry currNonce).result = TxResult.fatalError →
        (sendTxLoop functionName report env store txTry currNonce).store = store) ∧
      (sendTxLoop functionName report env store txTry currNonce).result ≠ TxResult.setupError := by
  intro k
  induction k with
  | zero =>
    intro txTry currNonce store hk
    have ht : ¬ txTry < maxTxTries := by omega
    rw [sendTxLoop, if_neg ht]
    exact ⟨fun _ => rfl, fun h => by simp at h, by simp⟩
  | succ k ih =>
    intro txTry currNonce store hk
    by_cases ht : txTry < maxTxTries
    · rw [sendTxLoop, if_pos ht]
      cases henv : env.submit txTry with
      | doError msg =>
        dsimp only
        by_cases hm : stringsContains msg "nonce too low"
        · rw [if_pos hm]
          dsimp only
          exact ih (txTry + 1)
            (Max (env.refresh txTry % U64) ((env.refresh txTry + 1) % U64)) store (by omega)
        · rw [if_neg hm]
          dsimp only
          refine ⟨?_, fun _ => rfl, by simp⟩
          intro h
          rcases h with h | h <;> simp at h
      | receiptStatus status =>
        dsimp only
        by_cases hs : status = 1
        · rw [if_pos hs]
          dsimp only
          refine ⟨fun _ => rfl, ?_, by simp⟩
          intro h
          simp at h
        · rw [if_neg hs]
          dsimp only
          exact ih (txTry + 1)
            (Max (env.refresh txTry % U64) ((env.refresh txTry + 1) % U64)) store (by omega)
    · rw [sendTxLoop, if_neg ht]
      exact ⟨fun _ => rfl, fun h => by simp at h, by simp⟩

theorem sendTxLoop_nonce_sorted (functionName : String) (report : Report) (env : TxEnv)
    (hb : ∀ i, env.refresh i < U64)
    (hmono : ∀ i j, i ≤ j → env.refresh i ≤ env.refresh j) :
    ∀ (k : Nat), ∀ txTry currNonce store, maxTxTries - txTry ≤ k →
      (∀ i, txTry ≤ i →
        currNonce ≤ Max (env.refresh i % U64) ((env.refresh i + 1) % U64)) →
      List.Sorted (· ≤ ·)
        ((sendTxLoop functionName report env store txTry currNonce).attempts.map
          Attempt.nonce) ∧
      ∀ x ∈ (sendTxLoop functionName report env store txTry currNonce).attempts.map
          Attempt.nonce,
        currNonce ≤ x := by
  intro k
  induction k with
  | zero =>
    intro txTry currNonce store hk hpre
    have ht : ¬ txTry < maxTxTries := by omega
    rw [sendTxLoop, if_neg ht]
    simp
  | succ k ih =>
    intro txTry currNonce store hk hpre
    by_cases ht : txTry < maxTxTries
    · rw [sendTxLoop, if_pos ht]
      cases henv : env.submit txTry with
      | doError msg =>
        dsimp only
        by_cases hm : stringsContains msg "nonce too low"
        · rw [if_pos hm]
          dsimp only
          have hpre2 : ∀ i, txTry + 1 ≤ i →
              Max (env.refresh txTry % U64) ((env.refresh txTry + 1) % U64) ≤
                Max (env.refresh i % U64) ((env.refresh i + 1) % U64) := by
            intro i hi
            exact nextNonce_le_nextNonce (hmono txTry i (by omega)) (hb i)
          have hrec := ih (txTry + 1)
            (Max (env.refresh txTry % U64) ((env.refresh txTry + 1) % U64)) store
            (by omega) hpre2
          have hcn : currNonce ≤
              Max (env.refresh txTry % U64) ((env.refresh txTry + 1) % U64) :=
            hpre txTry le_rfl
          rw [List.map_cons]
          constructor
          · rw [List.sorted_cons]
            exact ⟨fun b hb' => le_trans hcn (hrec.2 b hb'), hrec.1⟩
          · intro x hx
            rw [List.mem_cons] at hx
            rcases hx with rfl | hx
            · exact le_rfl
            · exact le_trans hcn (hrec.2 x hx)
        · rw [if_neg hm]
          dsimp only
          constructor
          · exact List.sorted_singleton _
          · intro x hx
            rw [List.map_singleton, List.mem_singleton] at hx
            subst hx
            exact le_rfl
      | receiptStatus status =>
        dsimp only
        by_cases hs : status = 1
        · rw [if_pos hs]
          dsimp only
          constructor
          · exact List.sorted_singleton _
          · intro x hx
            rw [List.map_singleton, List.mem_singleton] at hx
            subst hx
            exact le_rfl
        · rw [if_neg hs]
          dsimp only
          have hpre2 : ∀ i, txTry + 1 ≤ i →
              Max (env.refresh txTry % U64) ((env.refresh txTry + 1) % U64) ≤
                Max (env.refresh i % U64) ((env.refresh i + 1) % U64) := by
            intro i hi
            exact nextNonce_le_nextNonce (hmono txTry i (by omega)) (hb i)
          have hrec := ih (txTry + 1)
            (Max (env.refresh txTry % U64) ((env.refresh txTry + 1) % U64)) store
            (by omega) hpre2
          have hcn : currNonce ≤
              Max (env.refresh txTry % U64) ((env.refresh txTry + 1) % U64) :=
            hpre txTry le_rfl
          rw [List.map_cons]
          constructor
          · rw [List.sorted_cons]
            exact ⟨fun b hb' => le_trans hcn (hrec.2 b hb'), hrec.1⟩
          · intro x hx
            rw [List.mem_cons] at hx
            rcases hx with rfl | hx
            · exact le_rfl
            · exact le_trans hcn (hrec.2 x hx)
    · rw [sendTxLoop, if_neg ht]
      simp


def simpleEnv : TxEnv :=
  { abiOk := true, addrOk := true, txnOk := true, initNonce := 9
    refresh := fun _ => 9
    submit := fun _ => SubmitOutcome.receiptStatus 1 }

def nonceTooLowEnv : TxEnv :=
  { abiOk := true, addrOk := true, txnOk := true, initNonce := 5
    refresh := fun _ => 7
    submit := fun i =>
      if i = 0 then SubmitOutcome.doError "nonce too low: have 5, want 7"
      else SubmitOutcome.receiptStatus 1 }

def nonceDropEnv : TxEnv :=
  { abiOk := true, addrOk := true, txnOk := true, initNonce := 100
    refresh := fun _ => 5
    submit := fun i =>
      if i = 0 then SubmitOutcome.doError "nonce too low"
      else SubmitOutcome.receiptStatus 1 }

/-- Claim C1: in `sendTxWithRetry` there are at most 4 submission
attempts; the attempt with zero-based index `try` submits with
`gasPrice = (try+1) * 1_000_000_000` wei and `gasLimit = 1_000_000`, and
the first attempt's nonce is the initially fetched `currNonce`
(`uint64`). -/
theorem claim_C1_attempt_schedule (functionType : String) (report : Report)
    (store : MarketItems) (env : TxEnv) :
    (sendTxWithRetry functionType report store env).attempts.length ≤ maxTxTries ∧
    (sendTxWithRetry functionType report store env).attempts.map Attempt.txTry =
      List.range (sendTxWithRetry functionType report store env).attempts.length ∧
    (∀ a ∈ (sendTxWithRetry functionType report store env).attempts,
      a.gasPrice = (a.txTry + 1) * 1000000000 ∧ a.gasLimit = 1000000) ∧
    (∀ a, (sendTxWithRetry functionType report store env).attempts.head? = some a →
      a.nonce = env.initNonce % U64) := by
  rw [sendTxWithRetry]
  by_cases h1 : env.abiOk = false
  · rw [if_pos h1]
    exact ⟨Nat.zero_le _, rfl, by simp, by simp⟩
  rw [if_neg h1]
  by_cases h2 : env.addrOk = false
  · rw [if_pos h2]
    exact ⟨Nat.zero_le _, rfl, by simp, by simp⟩
  rw [if_neg h2]
  by_cases h3 : env.txnOk = false
  · rw [if_pos h3]
    exact ⟨Nat.zero_le _, rfl, by simp, by simp⟩
  rw [if_neg h3]
  have hsh := sendTxLoop_attempts_shape functionType report env maxTxTries 0
    (env.initNonce % U64) store (by omega)
  refine ⟨by simpa using hsh.1, by rw [List.range_eq_range']; exact hsh.2.1, hsh.2.2, ?_⟩
  intro a hha
  obtain ⟨tail, htail⟩ := sendTxLoop_head functionType report env store 0
    (env.initNonce % U64) (by norm_num [maxTxTries])
  rw [htail] at hha
  rw [List.head?_cons, Option.some_inj] at hha
  rw [← hha]

/-- Witness for claim C1 at a concrete environment whose first
submission immediately succeeds. -/
theorem claim_C1_attempt_schedule_witness :
    (sendTxWithRetry ProposeOutcome { MarketHash := "m", Outcome := 2 } []
        simpleEnv).attempts.length ≤ maxTxTries ∧
    ({ txTry := 0, gasPrice := 1000000000, gasLimit := 1000000, nonce := 9 } : Attempt).gasPrice =
      (({ txTry := 0, gasPrice := 1000000000, gasLimit := 1000000, nonce := 9 } : Attempt).txTry + 1) *
        1000000000 ∧
    ({ txTry := 0, gasPrice := 1000000000, gasLimit := 1000000, nonce := 9 } : Attempt).nonce =
      simpleEnv.initNonce % U64 := by
  have hatt : (sendTxWithRetry ProposeOutcome { MarketHash := "m", Outcome := 2 } []
      simpleEnv).attempts =
      [{ txTry := 0, gasPrice := 1000000000, gasLimit := 1000000, nonce := 9 }] := by
    simp [sendTxWithRetry, simpleEnv]
    rw [sendTxLoop]
    norm_num [maxTxTries, txGasPriceWei, txGasLimitWei, U64]
  refine ⟨(claim_C1_attempt_schedule ProposeOutcome { MarketHash := "m", Outcome := 2 } []
      simpleEnv).1, ?_, ?_⟩
  · exact ((claim_C1_attempt_schedule ProposeOutcome { MarketHash := "m", Outcome := 2 } []
      simpleEnv).2.2.1 _ (by rw [hatt]; exact List.mem_singleton_self _)).1
  · exact (claim_C1_attempt_schedule ProposeOutcome { MarketHash := "m", Outcome := 2 } []
      simpleEnv).2.2.2 _ (by rw [hatt]; rfl)

/-- Counterexample to claim C2 as stated: with an initial nonce of 5, a
first submission failing with error text "nonce too low: have 5, want 7"
and the nonce RPC returning 7, the second submission does use
`try = 1` and `nonce = Max 7 8 = 8 = max(RPC, RPC+1)`, but its gas
price is `2_000_000_000` wei, not the same `1_000_000_000` wei as the
first submission: the gas price is recomputed from the incremented
`txTry` on every iteration. -/
theorem claim_C2_counterexample :
    (sendTxWithRetry ProposeOutcome { MarketHash := "m", Outcome := 2 } []
        nonceTooLowEnv).attempts =
      [{ txTry := 0, gasPrice := 1000000000, gasLimit := 1000000, nonce := 5 },
       { txTry := 1, gasPrice := 2000000000, gasLimit := 1000000, nonce := 8 }] ∧
    (2000000000 : Nat) ≠ 1000000000 := by
  constructor
  · simp [sendTxWithRetry, nonceTooLowEnv]
    rw [sendTxLoop]
    norm_num [stringsContains, containsSub, Max, U64, maxTxTries, txGasPriceWei, txGasLimitWei]
    rw [sendTxLoop]
    norm_num [Max, U64, maxTxTries, txGasPriceWei, txGasLimitWei]
  · omega

/-- Claim C2 (amended): when a submission inside `sendTxWithRetry`
fails with an error whose text contains "nonce too low", the loop
re-fetches the chain nonce, sets `currNonce` to
`Max(chainNonce, chainNonce+1)`, increments `try`, and resubmits; the
second submit after such an error on the first attempt uses
`nonce = Max(RPC, RPC+1)` and a gas price of `2_000_000_000` wei (one
gas-price step higher than the first), with `try = 1`. -/
theorem claim_C2_amended (functionType : String) (report : Report) (store : MarketItems)
    (env : TxEnv) (msg : String)
    (ha : env.abiOk = true) (hd : env.addrOk = true) (ht : env.txnOk = true)
    (h0 : env.submit 0 = SubmitOutcome.doError msg)
    (hm : stringsContains msg "nonce too low" = true) :
    ∃ tail, (sendTxWithRetry functionType report store env).attempts =
      { txTry := 0, gasPrice := 1000000000, gasLimit := 1000000,
        nonce := env.initNonce % U64 } ::
      { txTry := 1, gasPrice := 2000000000, gasLimit := 1000000,
        nonce := Max (env.refresh 0 % U64) ((env.refresh 0 + 1) % U64) } :: tail := by
  rw [sendTxWithRetry, if_neg (by simp [ha]), if_neg (by simp [hd]), if_neg (by simp [ht])]
  rw [sendTxLoop, if_pos (by norm_num [maxTxTries])]
  rw [h0]
  dsimp only
  rw [if_pos hm]
  dsimp only
  obtain ⟨tail, htail⟩ := sendTxLoop_head functionType report env store 1
    (Max (env.refresh 0 % U64) ((env.refresh 0 + 1) % U64)) (by norm_num [maxTxTries])
  refine ⟨tail, ?_⟩
  rw [htail]
  norm_num [txGasPriceWei, txGasLimitWei]

/-- Witness for the amended claim C2 at the concrete nonce-too-low
environment. -/
theorem claim_C2_amended_witness :
    ∃ tail, (sendTxWithRetry ProposeOutcome { MarketHash := "m", Outcome := 2 } []
        nonceTooLowEnv).attempts =
      { txTry := 0, gasPrice := 1000000000, gasLimit := 1000000,
        nonce := nonceTooLowEnv.initNonce % U64 } ::
      { txTry := 1, gasPrice := 2000000000, gasLimit := 1000000,
        nonce := Max (nonceTooLowEnv.refresh 0 % U64)
          ((nonceTooLowEnv.refresh 0 + 1) % U64) } :: tail :=
  claim_C2_amended ProposeOutcome { MarketHash := "m", Outcome := 2 } [] nonceTooLowEnv
    "nonce too low: have 5, want 7" rfl rfl rfl rfl (by decide)

/-- Counterexample to claim C3 as stated: the nonce used is not
non-decreasing for every sequence of chain-nonce values returned by the
nonce RPC. With an initial fetch of 100, a "nonce too low" submission
error and a refresh that returns 5, the second attempt uses nonce
`Max 5 6 = 6 < 100`. -/
theorem claim_C3_counterexample :
    (sendTxWithRetry ProposeOutcome { MarketHash := "m", Outcome := 2 } []
        nonceDropEnv).attempts.map Attempt.nonce = [100, 6] ∧
    ¬ List.Sorted (· ≤ ·)
      ((sendTxWithRetry ProposeOutcome { MarketHash := "m", Outcome := 2 } []
        nonceDropEnv).attempts.map Attempt.nonce) := by
  have hatt : (sendTxWithRetry ProposeOutcome { MarketHash := "m", Outcome := 2 } []
      nonceDropEnv).attempts =
      [{ txTry := 0, gasPrice := 1000000000, gasLimit := 1000000, nonce := 100 },
       { txTry := 1, gasPrice := 2000000000, gasLimit := 1000000, nonce := 6 }] := by
    simp [sendTxWithRetry, nonceDropEnv]
    rw [sendTxLoop]
    norm_num [stringsContains, containsSub, Max, U64, maxTxTries, txGasPriceWei, txGasLimitWei]
    rw [sendTxLoop]
    norm_num [Max, U64, maxTxTries, txGasPriceWei, txGasLimitWei]
  rw [hatt]
  refine ⟨rfl, ?_⟩
  intro hs
  rw [List.map_cons, List.map_cons, List.sorted_cons] at hs
  have h100 := hs.1
    (Attempt.nonce { txTry := 1, gasPrice := 2000000000, gasLimit := 1000000, nonce := 6 })
    (by simp)
  simp at h100

/-- Claim C3 (amended): within any single invocation of
`sendTxWithRetry`, the nonce used is non-decreasing across successive
submission attempts, provided the chain-nonce values returned by the
nonce RPC are `uint64` values that are non-decreasing across calls and
at least the initially fetched nonce. -/
theorem claim_C3_amended (functionType : String) (report : Report) (store : MarketItems)
    (env : TxEnv)
    (hb : ∀ i, env.refresh i < U64)
    (hinit : env.initNonce < U64)
    (hfirst : env.initNonce ≤ env.refresh 0)
    (hmono : ∀ i j, i ≤ j → env.refresh i ≤ env.refresh j) :
    List.Sorted (· ≤ ·)
      ((sendTxWithRetry functionType report store env).attempts.map Attempt.nonce) := by
  rw [sendTxWithRetry]
  by_cases h1 : env.abiOk = false
  · rw [if_pos h1]
    exact List.sorted_nil
  rw [if_neg h1]
  by_cases h2 : env.addrOk = false
  · rw [if_pos h2]
    exact List.sorted_nil
  rw [if_neg h2]
  by_cases h3 : env.txnOk = false
  · rw [if_pos h3]
    exact List.sorted_nil
  rw [if_neg h3]
  have hpre : ∀ i, 0 ≤ i → env.initNonce % U64 ≤
      Max (env.refresh i % U64) ((env.refresh i + 1) % U64) := by
    intro i _
    rw [Nat.mod_eq_of_lt hinit]
    calc env.initNonce ≤ env.refresh 0 := hfirst
      _ ≤ env.refresh i := hmono 0 i (Nat.zero_le i)
      _ ≤ Max (env.refresh i % U64) ((env.refresh i + 1) % U64) := le_nextNonce (hb i)
  exact (sendTxLoop_nonce_sorted functionType report env hb hmono maxTxTries 0
    (env.initNonce % U64) store (by omega) hpre).1

/-- Witness for the amended claim C3 at a concrete constant-nonce
environment. -/
theorem claim_C3_amended_witness :
    List.Sorted (· ≤ ·)
      ((sendTxWithRetry ProposeOutcome { MarketHash := "m", Outcome := 2 } []
        simpleEnv).attempts.map Attempt.nonce) :=
  claim_C3_amended ProposeOutcome { MarketHash := "m", Outcome := 2 } [] simpleEnv
    (fun _ => by norm_num [simpleEnv, U64]) (by norm_num [simpleEnv, U64])
    (by norm_num [simpleEnv]) (fun _ _ _ => le_rfl)

/-- Claim C5: `sendTxWithRetry` mutates the market store only when the
function type is Report: it removes that market's entry on a receipt
with status 1 (`result = success`) or after exhausting all tries without
a success receipt (`result = exhausted`); for Propose and Vote
transactions the store is unchanged on every path, and for Report the
store is also unchanged on the fatal-submission-error and setup-error
paths. -/
theorem claim_C5_store_frame (functionType : String) (report : Report)
    (store : MarketItems) (env : TxEnv) :
    ((functionType = ProposeOutcome ∨ functionType = VoteOutcome) →
      (sendTxWithRetry functionType report store env).store = store) ∧
    (functionType = ReportOutcome →
      (((sendTxWithRetry functionType report store env).result = TxResult.success ∨
        (sendTxWithRetry functionType report store env).result = TxResult.exhausted) →
        (sendTxWithRetry functionType report store env).store =
          MarketItemStore.remove store report.MarketHash) ∧
      (((sendTxWithRetry functionType report store env).result = TxResult.fatalError ∨
        (sendTxWithRetry functionType report store env).result = TxResult.setupError) →
        (sendTxWithRetry functionType report store env).store = store)) := by
  rw [sendTxWithRetry]
  by_cases h1 : env.abiOk = false
  · rw [if_pos h1]
    exact ⟨fun _ => rfl, fun _ => ⟨fun h => by rcases h with h | h <;> simp at h,
      fun _ => rfl⟩⟩
  rw [if_neg h1]
  by_cases h2 : env.addrOk = false
  · rw [if_pos h2]
    exact ⟨fun _ => rfl, fun _ => ⟨fun h => by rcases h with h | h <;> simp at h,
      fun _ => rfl⟩⟩
  rw [if_neg h2]
  by_cases h3 : env.txnOk = false
  · rw [if_pos h3]
    exact ⟨fun _ => rfl, fun _ => ⟨fun h => by rcases h with h | h <;> simp at h,
      fun _ => rfl⟩⟩
  rw [if_neg h3]
  have hfr := sendTxLoop_store_frame functionType report env maxTxTries 0
    (env.initNonce % U64) store (by omega)
  constructor
  · intro hft
    have hne : ¬ (functionType = ReportOutcome) := by
      rcases hft with rfl | rfl <;> decide
    rcases hres : (sendTxLoop functionType report env store 0 (env.initNonce % U64)).result with
      _ | _ | _ | _
    · rw [hfr.1 (Or.inl hres), if_neg hne]
    · rw [hfr.2.1 hres]
    · rw [hfr.1 (Or.inr hres), if_neg hne]
    · exact absurd hres hfr.2.2
  · intro hft
    constructor
    · intro h
      rw [hfr.1 h, if_pos hft]
    · intro h
      rcases h with h | h
      · exact hfr.2.1 h
      · exact absurd h hfr.2.2

/-- Witness for claim C5: a successful Report removes the entry, a
successful Propose leaves the store unchanged. -/
theorem claim_C5_store_frame_witness :
    (sendTxWithRetry ReportOutcome { MarketHash := "m", Outcome := 2 } [("m", 3)]
        simpleEnv).store = MarketItemStore.remove [("m", 3)] "m" ∧
    (sendTxWithRetry ProposeOutcome { MarketHash := "m", Outcome := 2 } [("m", 3)]
        simpleEnv).store = [("m", 3)] := by
  have hres : (sendTxWithRetry ReportOutcome { MarketHash := "m", Outcome := 2 } [("m", 3)]
      simpleEnv).result = TxResult.success := by
    simp [sendTxWithRetry, simpleEnv]
    rw [sendTxLoop]
    norm_num [maxTxTries, txGasPriceWei, txGasLimitWei, U64, ReportOutcome]
  exact ⟨((claim_C5_store_frame ReportOutcome { MarketHash := "m", Outcome := 2 } [("m", 3)]
      simpleEnv).2 rfl).1 (Or.inl hres),
    (claim_C5_store_frame ProposeOutcome { MarketHash := "m", Outcome := 2 } [("m", 3)]
      simpleEnv).1 (Or.inl rfl)⟩

end SXReporter
